import Mathlib

/-!
Verification of the GeoJSON repair tool in src/fix_geojson.py.

The development shallowly embeds the three repair functions of the source
file: the coordinate-depth normalizer fix_geojson_structure (lines 27-61,
with its inner helper depth, lines 38-41), the validity repairer
fix_polygon_validity (lines 12-24), and the orchestrator
repair_geojson_no_gpd (lines 64-111).  JSON documents are modelled by the
inductive type JValue; the external geometry engine (shapely) is out of
scope per the specification and is modelled as an injected collaborator,
the structure GeoEngine, over which theorems quantify universally.
-/

namespace FixGeojson

/-- JSON values as produced by json.load.  Numbers are modelled as integers:
no statement in this development depends on numeric arithmetic, only on
whether a value is a list and on its truthiness.  Objects are association
lists in insertion order; json.load produces unique keys. -/
inductive JValue where
  | null
  | bool (b : Bool)
  | num  (n : Int)
  | str  (s : String)
  | arr  (elems : List JValue)
  | obj  (fields : List (String × JValue))

/-- Python truthiness of a JSON value, as used by the guards
"if not geom_dict" (line 31), "if geom_dict" (line 85) and
"if geom_fixed" (line 94 via the engine): None, False, 0, the empty
string, the empty list and the empty dict are falsy. -/
def truthy : JValue → Bool
  | .null => false
  | .bool b => b
  | .num n => n != 0
  | .str s => s != ""
  | .arr xs => !xs.isEmpty
  | .obj fs => !fs.isEmpty

/-- First-match association lookup: Python d[k], d.get(k) and the key
membership test k in d on a dict.  JSON objects have unique keys, so
first-match lookup agrees with dict semantics. -/
def lookupKey : List (String × JValue) → String → Option JValue
  | [], _ => none
  | (k, v) :: rest, key => if k = key then some v else lookupKey rest key

/-- Python d[k] = v on a dict: replace the value at an existing key in
place, keeping insertion order, or append a new binding at the end. -/
def setKey : List (String × JValue) → String → JValue → List (String × JValue)
  | [], key, v => [(key, v)]
  | (k, w) :: rest, key, v =>
      if k = key then (key, v) :: rest else (k, w) :: setKey rest key v

/-- The helper depth defined inside fix_geojson_structure
(src/fix_geojson.py lines 38-41): 1 + depth of the first element for a
non-empty list, and 0 for an empty list or a non-list. -/
def depth : JValue → Nat
  | .arr (x :: _) => 1 + depth x
  | _ => 0

/-- The expression coords[0] (lines 50 and 58).  It is only evaluated under
branch guards that force coords to be a non-empty list, where the default
case is unreachable; the theorem for claim C10 proves this. -/
def pyHead : JValue → JValue
  | .arr (x :: _) => x
  | _ => .null

/-- Python membership "key in lst" for a JSON array: the array contains the
string as an element. -/
def arrHasStr : List JValue → String → Bool
  | [], _ => false
  | .str s :: rest, key => if s = key then true else arrHasStr rest key
  | _ :: rest, key => arrHasStr rest key

/-- Helper for substring search: the needle is a character-wise head of the
haystack. -/
def charsPrefix : List Char → List Char → Bool
  | [], _ => true
  | _ :: _, [] => false
  | c :: cs, d :: ds => c == d && charsPrefix cs ds

/-- Helper for substring search over character lists. -/
def charsHaveSub : List Char → List Char → Bool
  | [], nd => charsPrefix nd []
  | c :: rest, nd => charsPrefix nd (c :: rest) || charsHaveSub rest nd

/-- Python membership "sub in s" for strings: substring containment. -/
def strContains (s sub : String) : Bool :=
  charsHaveSub s.data sub.data

/-- The normalizer fix_geojson_structure (src/fix_geojson.py lines 27-61).
The result is Except: an error value models a Python TypeError escaping
the function (the membership test "type" in geom_dict raises on a truthy
number or boolean, and indexing with a string key raises on a list or a
string that passes both membership tests); ok is the normal return value.
For falsy input, including None and the empty dict, the guard on line 31
returns the input unchanged.  For a dict carrying both keys, the Polygon
branch (lines 46-51) wraps at measured depth 2 and unwraps the first
element at depth above 3, then stores the coordinates back; the
MultiPolygon branch (lines 54-59) does the same one level higher; any
other type value falls through to the plain return on line 61. -/
def fix_geojson_structure (geom_dict : JValue) : Except String JValue :=
  if truthy geom_dict = false then .ok geom_dict else
  match geom_dict with
  | .obj fields =>
    match lookupKey fields "type", lookupKey fields "coordinates" with
    | some gtype, some coords =>
      let d := depth coords
      match gtype with
      | .str s =>
        if s = "Polygon" then
          let coords' := if d = 2 then .arr [coords]
                         else if 3 < d then pyHead coords
                         else coords
          .ok (.obj (setKey fields "coordinates" coords'))
        else if s = "MultiPolygon" then
          let coords' := if d = 3 then .arr [coords]
                         else if 4 < d then pyHead coords
                         else coords
          .ok (.obj (setKey fields "coordinates" coords'))
        else .ok (.obj fields)
      | _ => .ok (.obj fields)
    | _, _ => .ok (.obj fields)
  | .arr xs =>
      if arrHasStr xs "type" && arrHasStr xs "coordinates"
      then .error "TypeError" else .ok (.arr xs)
  | .str s =>
      if strContains s "type" && strContains s "coordinates"
      then .error "TypeError" else .ok (.str s)
  | _ => .error "TypeError"

/-- The external geometry engine (shapely), out of scope per the
specification and injected as a collaborator: parse is shape (any raised
exception is modelled as an error value, matching the bare
"except Exception" on line 90), is_valid the validity test, buffer0 the
zero-distance buffer geom.buffer(0) (a raised TopologicalError is
modelled as an error value), toDict is mapping, and nonempty is Python
truthiness of a geometry object (shapely geometries are falsy exactly
when empty), which the guard "if geom_fixed" on line 94 consults after
the None test. -/
structure GeoEngine (G : Type) where
  parse : JValue → Except String G
  is_valid : G → Bool
  buffer0 : G → Except String G
  toDict : G → JValue
  nonempty : G → Bool

/-- The repairer fix_polygon_validity (src/fix_geojson.py lines 12-24):
valid input is returned as is; otherwise buffer(0) is tried; a
TopologicalError raised by the engine is swallowed by the handler on
lines 22-23 and, like a still-invalid buffered result, leads to the
return of None on line 24. -/
def fix_polygon_validity {G : Type} (E : GeoEngine G) (geom : G) : Option G :=
  if E.is_valid geom then some geom
  else
    match E.buffer0 geom with
    | .error _ => none
    | .ok fixed => if E.is_valid fixed then some fixed else none

/-- Result of the body of the per-feature loop (lines 82-99) for one
feature.  keep: the feature, with its geometry replaced by the serialized
repaired geometry, is appended to fixed_features and counts toward done.
drop: the feature is not appended but still counts toward done and
triggers a progress emission; this happens when the geometry is falsy
(absent, null, or otherwise falsy, line 85) or when the repair fails the
"if geom_fixed" guard (line 94).  skip: the continue on line 91 taken on
a parse failure, which jumps straight to the next iteration and so skips
the append, the done increment and the progress emission.  abort: an
exception not handled inside the loop, which terminates the whole run. -/
inductive FeatStep where
  | keep (f : JValue)
  | drop
  | skip
  | abort (msg : String)

/-- The body of the loop "for feat in data.get("features", [])"
(lines 82-97) on one feature.  A non-dict feature raises AttributeError
at feat.get; feat.get returns None for a missing geometry key. -/
def featStep {G : Type} (E : GeoEngine G) (feat : JValue) : FeatStep :=
  match feat with
  | .obj ffields =>
    let geom_dict := (lookupKey ffields "geometry").getD .null
    if truthy geom_dict then
      match fix_geojson_structure geom_dict with
      | .error msg => .abort msg
      | .ok g2 =>
        match E.parse g2 with
        | .error _ => .skip
        | .ok geom =>
          match fix_polygon_validity E geom with
          | some fx =>
            if E.nonempty fx
            then .keep (.obj (setKey ffields "geometry" (E.toDict fx)))
            else .drop
          | none => .drop
    else .drop
  | _ => .abort "AttributeError"

/-- The per-feature loop of lines 82-99: iterate the features, collect the
survivors (fixed_features), thread the counter done, and after every
non-skipped feature emit the progress value
30 + int(60 * done / max(1, total)).  The first component is the survivor
list, or the message of an exception that aborted the loop; the second
component is the list of emitted progress values in order.  Python
evaluates 60 * done / total in floating point and truncates with int();
for the magnitudes at hand this is exact natural floor division, which is
how it is modelled. -/
def loopFeatures {G : Type} (E : GeoEngine G) (total : Nat) :
    List JValue → Nat → Except String (List JValue) × List Nat
  | [], _ => (.ok [], [])
  | feat :: rest, done =>
    match featStep E feat with
    | .abort msg => (.error msg, [])
    | .skip => loopFeatures E total rest done
    | .keep f2 =>
      let p := 30 + 60 * (done + 1) / max 1 total
      match loopFeatures E total rest (done + 1) with
      | (.ok survs, prog) => (.ok (f2 :: survs), p :: prog)
      | (.error msg, prog) => (.error msg, p :: prog)
    | .drop =>
      let p := 30 + 60 * (done + 1) / max 1 total
      match loopFeatures E total rest (done + 1) with
      | (res, prog) => (res, p :: prog)

/-- The expression data.get("features", []) followed by len and iteration
(lines 79 and 82).  An ok value is the feature list the loop will see; an
error value models an exception raised before any feature is processed
and carries its kind: len(None) and len on numbers or booleans raise
TypeError; iterating a non-empty dict or string yields non-dict items
whose .get raises AttributeError at the first iteration, before any
progress emission.  A missing key defaults to the empty list; an empty
dict or string iterates to nothing. -/
def getFeaturesField : Option JValue → Except String (List JValue)
  | none => .ok []
  | some (JValue.arr fs) => .ok fs
  | some (JValue.obj []) => .ok []
  | some (JValue.str "") => .ok []
  | some (JValue.obj (_ :: _)) => .error "AttributeError"
  | some (JValue.str _) => .error "AttributeError"
  | some _ => .error "TypeError"

/-- Interaction of one run with the world outside the loop: the result of
opening and JSON-parsing the input file (lines 73-74) and the result of
opening the output file for writing (line 104).  Error values carry the
exception message. -/
structure RunInput where
  loadResult : Except String JValue
  writeResult : Except String Unit

/-- A terminal report: messagebox.showinfo on success (line 108), carrying
the output path, or messagebox.showerror (line 111), carrying the message
of the caught exception. -/
inductive Outcome where
  | success (path : String)
  | error (msg : String)

/-- Options passed to json.dump on line 105. -/
structure DumpOpts where
  ensure_ascii : Bool
  indent : Option Nat

/-- The serialization options of line 105: ensure_ascii=False (non-ASCII
characters written literally) and indent=2 (stable indentation). -/
def geojsonDumpOpts : DumpOpts := ⟨false, some 2⟩

/-- Observable effects of one run of repair_geojson_no_gpd: the terminal
message-box calls in order, the document handed to json.dump together
with its options when the write is reached and succeeds, and the progress
values set in order. -/
structure RunResult where
  terminals : List Outcome
  written : Option (JValue × DumpOpts)
  progress : List Nat

/-- The orchestrator repair_geojson_no_gpd (src/fix_geojson.py
lines 64-111).  The whole body is one try block whose handler reports the
exception message through messagebox.showerror; the success path reports
through messagebox.showinfo.  Progress 10 is set before the load, 30
after it, one value per non-skipped feature inside the loop, and 100
after the write.  On a write failure the output file may be left incomplete;
only a fully successful write is recorded in the written field. -/
def repair_geojson_no_gpd {G : Type} (E : GeoEngine G) (inp : RunInput)
    (output_path : String) : RunResult :=
  match inp.loadResult with
  | .error msg => ⟨[.error msg], none, [10]⟩
  | .ok (.obj fields) =>
    match getFeaturesField (lookupKey fields "features") with
    | .error msg => ⟨[.error msg], none, [10, 30]⟩
    | .ok feats =>
      match loopFeatures E feats.length feats 0 with
      | (.error msg, prog) => ⟨[.error msg], none, 10 :: 30 :: prog⟩
      | (.ok survs, prog) =>
        match inp.writeResult with
        | .error msg => ⟨[.error msg], none, 10 :: 30 :: prog⟩
        | .ok _ =>
          ⟨[.success output_path],
           some (.obj (setKey fields "features" (.arr survs)), geojsonDumpOpts),
           10 :: 30 :: (prog ++ [100])⟩
  | .ok _ => ⟨[.error "AttributeError"], none, [10, 30]⟩

/-- The features the loop appends to fixed_features, as an
order-preserving filter of the input features. -/
def survivorsOf {G : Type} (E : GeoEngine G) (feats : List JValue) : List JValue :=
  feats.filterMap fun f =>
    match featStep E f with
    | .keep f2 => some f2
    | _ => none

/-- Number of features the loop does not append to fixed_features:
parse-failure skips plus falsy-geometry and repair-failure drops. -/
def droppedCount {G : Type} (E : GeoEngine G) (feats : List JValue) : Nat :=
  feats.countP fun f =>
    match featStep E f with
    | .keep _ => false
    | _ => true

/-- The values taken by the counter done at each progress emission of the
loop, in order: skipped features (parse failures) emit nothing and leave
the counter unchanged; every other feature increments it and emits. -/
def emittedDones {G : Type} (E : GeoEngine G) : List JValue → Nat → List Nat
  | [], _ => []
  | f :: rest, done =>
    match featStep E f with
    | .skip => emittedDones E rest done
    | .abort _ => []
    | _ => (done + 1) :: emittedDones E rest (done + 1)

/-- A concrete engine over a trivial geometry type, used to evaluate the
orchestration at concrete inputs: every geometry parses except the marker
value "bad", everything is valid and non-empty, and serialization returns
a fixed polygon dict. -/
def unitEngine : GeoEngine Unit :=
  ⟨fun j =>
      match j with
      | .str "bad" => .error "shape failed"
      | _ => .ok (),
   fun _ => true,
   fun g => .ok g,
   fun _ => JValue.obj [("type", JValue.str "Polygon")],
   fun _ => true⟩

/-- A well-formed polygon geometry dict of measured depth 3. -/
def geomGood : JValue :=
  .obj [("type", .str "Polygon"),
        ("coordinates",
         .arr [.arr [.arr [.num 0, .num 0], .arr [.num 1, .num 0],
                     .arr [.num 1, .num 1], .arr [.num 0, .num 0]]])]

/-- A feature whose geometry parses and repairs under unitEngine. -/
def featGood : JValue := .obj [("geometry", geomGood)]

/-- A feature whose geometry unitEngine fails to parse. -/
def featBad : JValue := .obj [("geometry", .str "bad")]

/-- A feature with geometry null and a non-geometry field. -/
def featNullGeom : JValue :=
  .obj [("geometry", .null), ("properties", .str "name")]

/-- A one-feature document whose single feature has geometry null. -/
def docNullGeom : JValue :=
  .obj [("type", .str "FeatureCollection"), ("features", .arr [featNullGeom])]

/-- Top-level fields of a two-feature document: one unparseable geometry
followed by one good polygon feature. -/
def docMixedFields : List (String × JValue) :=
  [("type", .str "FeatureCollection"), ("features", .arr [featBad, featGood])]

/-- A two-feature document: one unparseable geometry followed by one good
polygon feature. -/
def docMixed : JValue := .obj docMixedFields

/-- The good feature after repair under unitEngine: its geometry is
replaced by the serialized repaired geometry. -/
def featGoodFixed : JValue :=
  .obj [("geometry", .obj [("type", .str "Polygon")])]

example : featStep unitEngine featNullGeom = FeatStep.drop := rfl

example : featStep unitEngine featBad = FeatStep.skip := rfl

example : featStep unitEngine featGood = FeatStep.keep featGoodFixed := rfl

example :
    (repair_geojson_no_gpd unitEngine ⟨.ok docMixed, .ok ()⟩ "o").progress
      = [10, 30, 60, 100] := rfl

example :
    (repair_geojson_no_gpd unitEngine ⟨.ok docNullGeom, .ok ()⟩ "o").written
      = some (.obj [("type", .str "FeatureCollection"), ("features", .arr [])],
              geojsonDumpOpts) := rfl

example : fix_geojson_structure (JValue.num 5) = .error "TypeError" := rfl

example : depth (JValue.arr [JValue.arr [JValue.num 1, JValue.num 2]]) = 2 := rfl

lemma lookupKey_setKey_self (fields : List (String × JValue)) (key : String)
    (v : JValue) : lookupKey (setKey fields key v) key = some v := by
  induction fields with
  | nil => simp [setKey, lookupKey]
  | cons hd rest ih =>
    obtain ⟨k, w⟩ := hd
    by_cases hk : k = key
    · simp [setKey, lookupKey, hk]
    · simp [setKey, lookupKey, hk, ih]

lemma lookupKey_setKey_ne (fields : List (String × JValue)) (key k : String)
    (v : JValue) (h : k ≠ key) :
    lookupKey (setKey fields key v) k = lookupKey fields k := by
  induction fields with
  | nil => simp [setKey, lookupKey, Ne.symm h]
  | cons hd rest ih =>
    obtain ⟨k2, w⟩ := hd
    by_cases hk : k2 = key
    · subst hk
      simp [setKey, lookupKey, Ne.symm h]
    · by_cases hk2 : k2 = k
      · subst hk2
        simp [setKey, lookupKey, hk]
      · simp [setKey, lookupKey, hk, hk2, ih]

lemma setKey_eq_of_lookupKey (fields : List (String × JValue)) (key : String)
    (v : JValue) (h : lookupKey fields key = some v) :
    setKey fields key v = fields := by
  induction fields with
  | nil => simp [lookupKey] at h
  | cons hd rest ih =>
    obtain ⟨k, w⟩ := hd
    by_cases hk : k = key
    · subst hk
      simp [lookupKey] at h
      simp [setKey, h]
    · simp [lookupKey, hk] at h
      simp [setKey, hk, ih h]

lemma truthy_obj_of_lookupKey (fields : List (String × JValue)) (key : String)
    (v : JValue) (h : lookupKey fields key = some v) :
    truthy (.obj fields) = true := by
  cases fields with
  | nil => simp [lookupKey] at h
  | cons hd rest => simp [truthy]

lemma depth_pos_elim (c : JValue) (h : 1 ≤ depth c) :
    ∃ x xs, c = JValue.arr (x :: xs) := by
  cases c with
  | arr xs =>
    cases xs with
    | nil => simp [depth] at h
    | cons x rest => exact ⟨x, rest, rfl⟩
  | null => simp [depth] at h
  | bool b => simp [depth] at h
  | num n => simp [depth] at h
  | str s => simp [depth] at h
  | obj fs => simp [depth] at h

lemma progressVal_mono (m : Nat) {d d2 : Nat} (h : d ≤ d2) :
    30 + 60 * d / m ≤ 30 + 60 * d2 / m :=
  Nat.add_le_add_left (Nat.div_le_div_right (Nat.mul_le_mul (le_refl 60) h)) 30

lemma progressVal_le (n d : Nat) (h : d ≤ n) : 30 + 60 * d / max 1 n ≤ 90 := by
  have h1 : d ≤ max 1 n := le_trans h (le_max_right 1 n)
  have h2 : 60 * d / max 1 n ≤ 60 * max 1 n / max 1 n :=
    Nat.div_le_div_right (Nat.mul_le_mul (le_refl 60) h1)
  have h3 : 60 * max 1 n / max 1 n = 60 :=
    Nat.mul_div_cancel 60 (lt_of_lt_of_le Nat.zero_lt_one (le_max_left 1 n))
  omega

lemma loopFeatures_ok {G : Type} (E : GeoEngine G) (n : Nat) :
    ∀ (feats : List JValue) (done : Nat) (survs : List JValue) (prog : List Nat),
      loopFeatures E n feats done = (.ok survs, prog) →
      survs = survivorsOf E feats
  | [], done, survs, prog => by
      intro h
      simp only [loopFeatures, Prod.mk.injEq, Except.ok.injEq] at h
      rw [← h.1]
      simp [survivorsOf]
  | f :: rest, done, survs, prog => by
      intro h
      cases hstep : featStep E f with
      | abort msg => simp [loopFeatures, hstep] at h
      | skip =>
        simp only [loopFeatures, hstep] at h
        have ih := loopFeatures_ok E n rest done survs prog h
        rw [ih]
        simp [survivorsOf, List.filterMap_cons, hstep]
      | keep f2 =>
        rcases hrec : loopFeatures E n rest (done + 1) with ⟨res, prog2⟩
        cases res with
        | ok s2 =>
          simp only [loopFeatures, hstep, hrec, Prod.mk.injEq,
            Except.ok.injEq] at h
          have ih := loopFeatures_ok E n rest (done + 1) s2 prog2 hrec
          rw [← h.1, ih]
          simp [survivorsOf, List.filterMap_cons, hstep]
        | error msg =>
          simp [loopFeatures, hstep, hrec] at h
      | drop =>
        rcases hrec : loopFeatures E n rest (done + 1) with ⟨res, prog2⟩
        cases res with
        | ok s2 =>
          simp only [loopFeatures, hstep, hrec, Prod.mk.injEq,
            Except.ok.injEq] at h
          have ih := loopFeatures_ok E n rest (done + 1) s2 prog2 hrec
          rw [← h.1, ih]
          simp [survivorsOf, List.filterMap_cons, hstep]
        | error msg =>
          simp [loopFeatures, hstep, hrec] at h

lemma survivorsOf_length {G : Type} (E : GeoEngine G) :
    ∀ feats : List JValue,
      (survivorsOf E feats).length + droppedCount E feats = feats.length
  | [] => by simp [survivorsOf, droppedCount]
  | f :: rest => by
      have ih := survivorsOf_length E rest
      cases hstep : featStep E f with
      | keep f2 =>
        simp [survivorsOf, droppedCount, List.filterMap_cons,
          List.countP_cons, hstep] at ih ⊢
        omega
      | drop =>
        simp [survivorsOf, droppedCount, List.filterMap_cons,
          List.countP_cons, hstep] at ih ⊢
        omega
      | skip =>
        simp [survivorsOf, droppedCount, List.filterMap_cons,
          List.countP_cons, hstep] at ih ⊢
        omega
      | abort msg =>
        simp [survivorsOf, droppedCount, List.filterMap_cons,
          List.countP_cons, hstep] at ih ⊢
        omega

lemma loopFeatures_prog_eq {G : Type} (E : GeoEngine G) (n : Nat) :
    ∀ (feats : List JValue) (done : Nat),
      (loopFeatures E n feats done).2
        = (emittedDones E feats done).map fun d => 30 + 60 * d / max 1 n
  | [], done => by simp [loopFeatures, emittedDones]
  | f :: rest, done => by
      cases hstep : featStep E f with
      | abort msg => simp [loopFeatures, emittedDones, hstep]
      | skip =>
        have ih := loopFeatures_prog_eq E n rest done
        simp [loopFeatures, emittedDones, hstep, ih]
      | keep f2 =>
        have ih := loopFeatures_prog_eq E n rest (done + 1)
        rcases hrec : loopFeatures E n rest (done + 1) with ⟨res, prog2⟩
        cases res with
        | ok s2 =>
          simp only [hrec] at ih
          simp [loopFeatures, emittedDones, hstep, hrec, ih]
        | error msg =>
          simp only [hrec] at ih
          simp [loopFeatures, emittedDones, hstep, hrec, ih]
      | drop =>
        have ih := loopFeatures_prog_eq E n rest (done + 1)
        rcases hrec : loopFeatures E n rest (done + 1) with ⟨res, prog2⟩
        cases res with
        | ok s2 =>
          simp only [hrec] at ih
          simp [loopFeatures, emittedDones, hstep, hrec, ih]
        | error msg =>
          simp only [hrec] at ih
          simp [loopFeatures, emittedDones, hstep, hrec, ih]

lemma loopFeatures_prog_bounds {G : Type} (E : GeoEngine G) (n : Nat) :
    ∀ (feats : List JValue) (done : Nat), done + feats.length ≤ n →
      ∀ x ∈ (loopFeatures E n feats done).2, 30 ≤ x ∧ x ≤ 90
  | [], done => by
      intro hle x hx
      simp [loopFeatures] at hx
  | f :: rest, done => by
      intro hle x hx
      simp only [List.length_cons] at hle
      cases hstep : featStep E f with
      | abort msg =>
        simp [loopFeatures, hstep] at hx
      | skip =>
        simp only [loopFeatures, hstep] at hx
        exact loopFeatures_prog_bounds E n rest done (by omega) x hx
      | keep f2 =>
        rcases hrec : loopFeatures E n rest (done + 1) with ⟨res, prog2⟩
        have ih := loopFeatures_prog_bounds E n rest (done + 1) (by omega)
        simp only [hrec] at ih
        cases res with
        | ok s2 =>
          simp only [loopFeatures, hstep, hrec] at hx
          rcases List.mem_cons.mp hx with hx1 | hx2
          · subst hx1
            exact ⟨Nat.le_add_right 30 _, progressVal_le n (done + 1) (by omega)⟩
          · exact ih x hx2
        | error msg =>
          simp only [loopFeatures, hstep, hrec] at hx
          rcases List.mem_cons.mp hx with hx1 | hx2
          · subst hx1
            exact ⟨Nat.le_add_right 30 _, progressVal_le n (done + 1) (by omega)⟩
          · exact ih x hx2
      | drop =>
        rcases hrec : loopFeatures E n rest (done + 1) with ⟨res, prog2⟩
        have ih := loopFeatures_prog_bounds E n rest (done + 1) (by omega)
        simp only [hrec] at ih
        cases res with
        | ok s2 =>
          simp only [loopFeatures, hstep, hrec] at hx
          rcases List.mem_cons.mp hx with hx1 | hx2
          · subst hx1
            exact ⟨Nat.le_add_right 30 _, progressVal_le n (done + 1) (by omega)⟩
          · exact ih x hx2
        | error msg =>
          simp only [loopFeatures, hstep, hrec] at hx
          rcases List.mem_cons.mp hx with hx1 | hx2
          · subst hx1
            exact ⟨Nat.le_add_right 30 _, progressVal_le n (done + 1) (by omega)⟩
          · exact ih x hx2

lemma loopFeatures_chain {G : Type} (E : GeoEngine G) (n : Nat) :
    ∀ (feats : List JValue) (done a : Nat), done + feats.length ≤ n →
      a ≤ 100 →
      (∀ d, done < d → d ≤ n → a ≤ 30 + 60 * d / max 1 n) →
      List.Chain' (· ≤ ·) (a :: (loopFeatures E n feats done).2 ++ [100])
  | [], done, a => by
      intro hle ha hmono
      simp only [loopFeatures]
      exact List.chain'_pair.mpr ha
  | f :: rest, done, a => by
      intro hle ha hmono
      simp only [List.length_cons] at hle
      cases hstep : featStep E f with
      | abort msg =>
        simp only [loopFeatures, hstep]
        exact List.chain'_pair.mpr ha
      | skip =>
        simp only [loopFeatures, hstep]
        exact loopFeatures_chain E n rest done a (by omega) ha hmono
      | keep f2 =>
        rcases hrec : loopFeatures E n rest (done + 1) with ⟨res, prog2⟩
        have hstepmono : ∀ d, done + 1 < d → d ≤ n →
            30 + 60 * (done + 1) / max 1 n ≤ 30 + 60 * d / max 1 n :=
          fun d hd _ => progressVal_mono (max 1 n) (le_of_lt hd)
        have htail := loopFeatures_chain E n rest (done + 1)
          (30 + 60 * (done + 1) / max 1 n) (by omega)
          (le_trans (progressVal_le n (done + 1) (by omega)) (by omega))
          hstepmono
        simp only [hrec] at htail
        have hhead : a ≤ 30 + 60 * (done + 1) / max 1 n :=
          hmono (done + 1) (by omega) (by omega)
        cases res with
        | ok s2 =>
          simp only [loopFeatures, hstep, hrec, List.cons_append]
          exact List.chain'_cons.mpr ⟨hhead, htail⟩
        | error msg =>
          simp only [loopFeatures, hstep, hrec, List.cons_append]
          exact List.chain'_cons.mpr ⟨hhead, htail⟩
      | drop =>
        rcases hrec : loopFeatures E n rest (done + 1) with ⟨res, prog2⟩
        have hstepmono : ∀ d, done + 1 < d → d ≤ n →
            30 + 60 * (done + 1) / max 1 n ≤ 30 + 60 * d / max 1 n :=
          fun d hd _ => progressVal_mono (max 1 n) (le_of_lt hd)
        have htail := loopFeatures_chain E n rest (done + 1)
          (30 + 60 * (done + 1) / max 1 n) (by omega)
          (le_trans (progressVal_le n (done + 1) (by omega)) (by omega))
          hstepmono
        simp only [hrec] at htail
        have hhead : a ≤ 30 + 60 * (done + 1) / max 1 n :=
          hmono (done + 1) (by omega) (by omega)
        cases res with
        | ok s2 =>
          simp only [loopFeatures, hstep, hrec, List.cons_append]
          exact List.chain'_cons.mpr ⟨hhead, htail⟩
        | error msg =>
          simp only [loopFeatures, hstep, hrec, List.cons_append]
          exact List.chain'_cons.mpr ⟨hhead, htail⟩

lemma fix_obj_total (fields : List (String × JValue)) :
    ∃ r, fix_geojson_structure (JValue.obj fields) = .ok r := by
  cases fields with
  | nil => exact ⟨JValue.obj [], rfl⟩
  | cons hd tl =>
    rcases hl1 : lookupKey (hd :: tl) "type" with _ | t
    · exact ⟨JValue.obj (hd :: tl), by simp [fix_geojson_structure, truthy, hl1]⟩
    · rcases hl2 : lookupKey (hd :: tl) "coordinates" with _ | c
      · exact ⟨JValue.obj (hd :: tl),
          by simp [fix_geojson_structure, truthy, hl1, hl2]⟩
      · cases t with
        | str s =>
          by_cases hs1 : s = "Polygon"
          · exact ⟨_,
              by simp [fix_geojson_structure, truthy, hl1, hl2, hs1]; rfl⟩
          · by_cases hs2 : s = "MultiPolygon"
            · exact ⟨_,
                by simp [fix_geojson_structure, truthy, hl1, hl2, hs1, hs2]; rfl⟩
            · exact ⟨_,
                by simp [fix_geojson_structure, truthy, hl1, hl2, hs1, hs2]; rfl⟩
        | null =>
          exact ⟨_, by simp [fix_geojson_structure, truthy, hl1, hl2]; rfl⟩
        | bool b =>
          exact ⟨_, by simp [fix_geojson_structure, truthy, hl1, hl2]; rfl⟩
        | num n =>
          exact ⟨_, by simp [fix_geojson_structure, truthy, hl1, hl2]; rfl⟩
        | arr xs =>
          exact ⟨_, by simp [fix_geojson_structure, truthy, hl1, hl2]; rfl⟩
        | obj fs =>
          exact ⟨_, by simp [fix_geojson_structure, truthy, hl1, hl2]; rfl⟩

/-- C5 counterexample: the spec asserts depth of a list holding the single
pair 1, 2 is 1, but the source depth counts the position pair itself as a
nesting level and computes 2. -/
theorem c5_counterexample :
    depth (JValue.arr [JValue.arr [JValue.num 1, JValue.num 2]]) = 2
    ∧ (2 : Nat) ≠ 1 :=
  ⟨rfl, by decide⟩

/-- C5 (amended): the depth helper computes 0 on the empty list, 2 on a
singleton list holding one coordinate pair, and 3 with one more level of
wrapping. -/
theorem c5_depth_examples :
    depth (JValue.arr []) = 0
    ∧ depth (JValue.arr [JValue.arr [JValue.num 1, JValue.num 2]]) = 2
    ∧ depth (JValue.arr [JValue.arr [JValue.arr [JValue.num 1, JValue.num 2]]]) = 3 :=
  ⟨rfl, rfl, rfl⟩

/-- C3: fix_polygon_validity returns a valid input unchanged; an invalid
input is buffered and the buffered object returned when valid; the result
is None exactly when the input is invalid and the buffer operation either
raises a topological failure or yields a still-invalid object; as a total
function into Option it converts every engine-level topological failure
into the failure signal instead of propagating it. -/
theorem c3_validity_repairer {G : Type} (E : GeoEngine G) (geom : G) :
    (E.is_valid geom = true → fix_polygon_validity E geom = some geom)
    ∧ (E.is_valid geom = false → ∀ b, E.buffer0 geom = .ok b →
        E.is_valid b = true → fix_polygon_validity E geom = some b)
    ∧ (fix_polygon_validity E geom = none ↔
        E.is_valid geom = false ∧
          ((∃ e, E.buffer0 geom = .error e) ∨
           (∃ b, E.buffer0 geom = .ok b ∧ E.is_valid b = false))) := by
  refine ⟨?_, ?_, ?_⟩
  · intro hv
    simp [fix_polygon_validity, hv]
  · intro hv b hb hvb
    simp [fix_polygon_validity, hv, hb, hvb]
  · constructor
    · intro hnone
      by_cases hv : E.is_valid geom
      · simp [fix_polygon_validity, hv] at hnone
      · refine ⟨by simpa using hv, ?_⟩
        rcases hb : E.buffer0 geom with e | b
        · exact Or.inl ⟨e, rfl⟩
        · refine Or.inr ⟨b, rfl, ?_⟩
          by_cases hvb : E.is_valid b
          · simp [fix_polygon_validity, hv, hb, hvb] at hnone
          · simpa using hvb
    · rintro ⟨hv, ⟨e, hb⟩ | ⟨b, hb, hvb⟩⟩
      · simp [fix_polygon_validity, hv, hb]
      · simp [fix_polygon_validity, hv, hb, hvb]

/-- Witness for C3: under unitEngine every geometry is valid and the
repairer returns it unchanged. -/
theorem c3_validity_repairer_witness :
    unitEngine.is_valid () = true
    ∧ fix_polygon_validity unitEngine () = some () :=
  ⟨rfl, (c3_validity_repairer unitEngine ()).1 rfl⟩

/-- C8: the normalizer returns its input unchanged when the input is null,
when the dict lacks the type key or the coordinates key, and when the type
value is neither Polygon nor MultiPolygon; on the domain of the claim,
null and arbitrary dicts, it never fails and always returns its input
kind of value. -/
theorem c8_normalizer_passthrough (fields : List (String × JValue)) :
    fix_geojson_structure JValue.null = .ok JValue.null
    ∧ ((lookupKey fields "type" = none ∨ lookupKey fields "coordinates" = none) →
        fix_geojson_structure (JValue.obj fields) = .ok (JValue.obj fields))
    ∧ (∀ t coords, lookupKey fields "type" = some t →
        lookupKey fields "coordinates" = some coords →
        t ≠ JValue.str "Polygon" → t ≠ JValue.str "MultiPolygon" →
        fix_geojson_structure (JValue.obj fields) = .ok (JValue.obj fields))
    ∧ (∃ r, fix_geojson_structure (JValue.obj fields) = .ok r) := by
  refine ⟨rfl, ?_, ?_, fix_obj_total fields⟩
  · intro h
    cases fields with
    | nil => rfl
    | cons hd tl =>
      rcases hl1 : lookupKey (hd :: tl) "type" with _ | t
      · simp [fix_geojson_structure, truthy, hl1]
      · rcases hl2 : lookupKey (hd :: tl) "coordinates" with _ | c
        · simp [fix_geojson_structure, truthy, hl1, hl2]
        · rcases h with h | h
          · rw [hl1] at h
            simp at h
          · rw [hl2] at h
            simp at h
  · intro t coords hl1 hl2 ht hmp
    have htr : truthy (JValue.obj fields) = true :=
      truthy_obj_of_lookupKey fields "type" t hl1
    cases t with
    | str s =>
      have hs1 : s ≠ "Polygon" := fun hh => ht (by rw [hh])
      have hs2 : s ≠ "MultiPolygon" := fun hh => hmp (by rw [hh])
      simp [fix_geojson_structure, htr, hl1, hl2, hs1, hs2]
    | null => simp [fix_geojson_structure, htr, hl1, hl2]
    | bool b => simp [fix_geojson_structure, htr, hl1, hl2]
    | num n => simp [fix_geojson_structure, htr, hl1, hl2]
    | arr xs => simp [fix_geojson_structure, htr, hl1, hl2]
    | obj fs => simp [fix_geojson_structure, htr, hl1, hl2]

/-- Witness for C8: a Point geometry dict carrying both keys passes
through the normalizer unchanged. -/
theorem c8_normalizer_passthrough_witness :
    lookupKey [("type", JValue.str "Point"),
        ("coordinates", JValue.arr [JValue.num 0, JValue.num 0])] "type"
      = some (JValue.str "Point")
    ∧ fix_geojson_structure (JValue.obj [("type", JValue.str "Point"),
        ("coordinates", JValue.arr [JValue.num 0, JValue.num 0])])
      = .ok (JValue.obj [("type", JValue.str "Point"),
        ("coordinates", JValue.arr [JValue.num 0, JValue.num 0])]) := by
  refine ⟨rfl, ?_⟩
  exact (c8_normalizer_passthrough
      [("type", JValue.str "Point"),
       ("coordinates", JValue.arr [JValue.num 0, JValue.num 0])]).2.2.1
    (JValue.str "Point") (JValue.arr [JValue.num 0, JValue.num 0]) rfl rfl
    (fun h => by simp at h) (fun h => by simp at h)

/-- C2: for a geometry dict carrying both keys, the Polygon branch wraps
the coordinates once at measured depth 2 (yielding depth 3), replaces them
by their first element at depth above 3 (lowering the depth by exactly
one), and leaves them unchanged at depth exactly 3; the MultiPolygon
branch applies the same policy one level higher: wrap at depth 3
(yielding depth 4), unwrap the first element at depth above 4, no change
at depth 4. -/
theorem c2_depth_normalization (fields : List (String × JValue))
    (coords : JValue) (hc : lookupKey fields "coordinates" = some coords) :
    (lookupKey fields "type" = some (JValue.str "Polygon") →
      (depth coords = 2 →
        fix_geojson_structure (JValue.obj fields)
          = .ok (JValue.obj (setKey fields "coordinates" (JValue.arr [coords])))
        ∧ depth (JValue.arr [coords]) = 3)
      ∧ (3 < depth coords →
        fix_geojson_structure (JValue.obj fields)
          = .ok (JValue.obj (setKey fields "coordinates" (pyHead coords)))
        ∧ depth (pyHead coords) + 1 = depth coords)
      ∧ (depth coords = 3 →
        fix_geojson_structure (JValue.obj fields) = .ok (JValue.obj fields)))
    ∧ (lookupKey fields "type" = some (JValue.str "MultiPolygon") →
      (depth coords = 3 →
        fix_geojson_structure (JValue.obj fields)
          = .ok (JValue.obj (setKey fields "coordinates" (JValue.arr [coords])))
        ∧ depth (JValue.arr [coords]) = 4)
      ∧ (4 < depth coords →
        fix_geojson_structure (JValue.obj fields)
          = .ok (JValue.obj (setKey fields "coordinates" (pyHead coords)))
        ∧ depth (pyHead coords) + 1 = depth coords)
      ∧ (depth coords = 4 →
        fix_geojson_structure (JValue.obj fields) = .ok (JValue.obj fields))) := by
  have htr : truthy (JValue.obj fields) = true :=
    truthy_obj_of_lookupKey fields "coordinates" coords hc
  constructor
  · intro ht
    refine ⟨?_, ?_, ?_⟩
    · intro hd2
      refine ⟨?_, ?_⟩
      · simp [fix_geojson_structure, htr, ht, hc, hd2]
      · simp [depth, hd2]
    · intro hd3
      have hne2 : depth coords ≠ 2 := by omega
      refine ⟨?_, ?_⟩
      · simp [fix_geojson_structure, htr, ht, hc, hne2, hd3]
      · obtain ⟨x, xs, hx⟩ := depth_pos_elim coords (by omega)
        subst hx
        simp [depth, pyHead]
        omega
    · intro heq3
      have hne2 : depth coords ≠ 2 := by omega
      have hnlt : ¬ 3 < depth coords := by omega
      have hfix : fix_geojson_structure (JValue.obj fields)
          = .ok (JValue.obj (setKey fields "coordinates" coords)) := by
        simp [fix_geojson_structure, htr, ht, hc, hne2, hnlt]
      rw [hfix, setKey_eq_of_lookupKey fields "coordinates" coords hc]
  · intro ht
    refine ⟨?_, ?_, ?_⟩
    · intro hd3
      refine ⟨?_, ?_⟩
      · simp [fix_geojson_structure, htr, ht, hc, hd3]
      · simp [depth, hd3]
    · intro hd4
      have hne3 : depth coords ≠ 3 := by omega
      refine ⟨?_, ?_⟩
      · simp [fix_geojson_structure, htr, ht, hc, hne3, hd4]
      · obtain ⟨x, xs, hx⟩ := depth_pos_elim coords (by omega)
        subst hx
        simp [depth, pyHead]
        omega
    · intro heq4
      have hne3 : depth coords ≠ 3 := by omega
      have hnlt : ¬ 4 < depth coords := by omega
      have hfix : fix_geojson_structure (JValue.obj fields)
          = .ok (JValue.obj (setKey fields "coordinates" coords)) := by
        simp [fix_geojson_structure, htr, ht, hc, hne3, hnlt]
      rw [hfix, setKey_eq_of_lookupKey fields "coordinates" coords hc]

/-- A single polygon ring given directly as coordinates: measured
depth 2. -/
def polyRingDepth2 : JValue :=
  JValue.arr [JValue.arr [JValue.num 0, JValue.num 0],
              JValue.arr [JValue.num 1, JValue.num 1]]

/-- Witness for C2: a Polygon geometry of measured depth 2 gets its
coordinates wrapped once. -/
theorem c2_depth_normalization_witness :
    depth polyRingDepth2 = 2
    ∧ fix_geojson_structure
        (JValue.obj [("type", JValue.str "Polygon"),
                     ("coordinates", polyRingDepth2)])
      = .ok (JValue.obj (setKey
          [("type", JValue.str "Polygon"), ("coordinates", polyRingDepth2)]
          "coordinates" (JValue.arr [polyRingDepth2]))) := by
  refine ⟨rfl, ?_⟩
  exact (((c2_depth_normalization
      [("type", JValue.str "Polygon"), ("coordinates", polyRingDepth2)]
      polyRingDepth2 rfl).1 rfl).1 rfl).1

/-- C10 counterexample: the normalizer is not total on arbitrary
JSON-like input: on a truthy non-container geometry value such as the
number 5 the key-membership test on line 31 raises TypeError. -/
theorem c10_counterexample :
    fix_geojson_structure (JValue.num 5) = .error "TypeError" := rfl

/-- C10 (amended): a measured depth of at least 1 forces the coordinates
to be a non-empty list, so the first-element access of the unwrap
branches (Polygon at depth above 3, MultiPolygon at depth above 4) is
always in bounds; the normalizer is total on null and on arbitrary dict
input, though not on truthy non-container values. -/
theorem c10_index_safety :
    (∀ c : JValue, 1 ≤ depth c →
      ∃ x xs, c = JValue.arr (x :: xs) ∧ pyHead c = x)
    ∧ (∀ fields coords,
        lookupKey fields "type" = some (JValue.str "Polygon") →
        lookupKey fields "coordinates" = some coords → 3 < depth coords →
        ∃ x xs, coords = JValue.arr (x :: xs) ∧
          fix_geojson_structure (JValue.obj fields)
            = .ok (JValue.obj (setKey fields "coordinates" x)))
    ∧ (∀ fields coords,
        lookupKey fields "type" = some (JValue.str "MultiPolygon") →
        lookupKey fields "coordinates" = some coords → 4 < depth coords →
        ∃ x xs, coords = JValue.arr (x :: xs) ∧
          fix_geojson_structure (JValue.obj fields)
            = .ok (JValue.obj (setKey fields "coordinates" x)))
    ∧ (∀ fields, ∃ r, fix_geojson_structure (JValue.obj fields) = .ok r)
    ∧ fix_geojson_structure JValue.null = .ok JValue.null := by
  refine ⟨?_, ?_, ?_, fix_obj_total, rfl⟩
  · intro c hdep
    obtain ⟨x, xs, hx⟩ := depth_pos_elim c hdep
    subst hx
    exact ⟨x, xs, rfl, rfl⟩
  · intro fields coords ht hc hd
    have htr : truthy (JValue.obj fields) = true :=
      truthy_obj_of_lookupKey fields "coordinates" coords hc
    obtain ⟨x, xs, hx⟩ := depth_pos_elim coords (by omega)
    have hne2 : depth coords ≠ 2 := by omega
    refine ⟨x, xs, hx, ?_⟩
    have hfix : fix_geojson_structure (JValue.obj fields)
        = .ok (JValue.obj (setKey fields "coordinates" (pyHead coords))) := by
      simp [fix_geojson_structure, htr, ht, hc, hne2, hd]
    rw [hfix, hx]
    simp [pyHead]
  · intro fields coords ht hc hd
    have htr : truthy (JValue.obj fields) = true :=
      truthy_obj_of_lookupKey fields "coordinates" coords hc
    obtain ⟨x, xs, hx⟩ := depth_pos_elim coords (by omega)
    have hne3 : depth coords ≠ 3 := by omega
    refine ⟨x, xs, hx, ?_⟩
    have hfix : fix_geojson_structure (JValue.obj fields)
        = .ok (JValue.obj (setKey fields "coordinates" (pyHead coords))) := by
      simp [fix_geojson_structure, htr, ht, hc, hne3, hd]
    rw [hfix, hx]
    simp [pyHead]

/-- Witness for C10: a singleton list has depth 1 and a well-defined
first element. -/
theorem c10_index_safety_witness :
    1 ≤ depth (JValue.arr [JValue.null])
    ∧ ∃ x xs, JValue.arr [JValue.null] = JValue.arr (x :: xs)
        ∧ pyHead (JValue.arr [JValue.null]) = x :=
  ⟨le_refl 1, c10_index_safety.1 (JValue.arr [JValue.null]) (le_refl 1)⟩

/-- C1 counterexample: a one-feature document whose feature has geometry
null and a properties field comes out of a successful run with an empty
features list: the feature is not preserved in the output. -/
theorem c1_counterexample :
    (repair_geojson_no_gpd unitEngine ⟨.ok docNullGeom, .ok ()⟩
        "out.geojson").written
      = some (JValue.obj [("type", JValue.str "FeatureCollection"),
                          ("features", JValue.arr [])], geojsonDumpOpts)
    ∧ survivorsOf unitEngine [featNullGeom] = []
    ∧ ([] : List JValue) ≠ [featNullGeom] := by
  refine ⟨rfl, rfl, ?_⟩
  intro hcontra
  simpa using congrArg List.length hcontra

/-- C1 (amended): a feature whose geometry field is absent or null is NOT
appended to the survivor list: the loop body classifies it as a drop, it
contributes nothing to the survivor sequence, and it still counts toward
the progress index, whose emission after it uses an incremented counter. -/
theorem c1_no_geometry_dropped {G : Type} (E : GeoEngine G)
    (ffields : List (String × JValue))
    (h : lookupKey ffields "geometry" = none ∨
         lookupKey ffields "geometry" = some JValue.null) :
    featStep E (JValue.obj ffields) = FeatStep.drop
    ∧ (∀ rest, survivorsOf E (JValue.obj ffields :: rest) = survivorsOf E rest)
    ∧ (∀ rest done, emittedDones E (JValue.obj ffields :: rest) done
        = (done + 1) :: emittedDones E rest (done + 1)) := by
  have hstep : featStep E (JValue.obj ffields) = FeatStep.drop := by
    rcases h with h | h <;> simp [featStep, h, truthy]
  refine ⟨hstep, ?_, ?_⟩
  · intro rest
    simp [survivorsOf, List.filterMap_cons, hstep]
  · intro rest done
    simp [emittedDones, hstep]

/-- Witness for C1 (amended): a feature with only a properties field is
classified as a drop by the loop body. -/
theorem c1_no_geometry_dropped_witness :
    lookupKey [("properties", JValue.str "name")] "geometry" = none
    ∧ featStep unitEngine (JValue.obj [("properties", JValue.str "name")])
      = FeatStep.drop :=
  ⟨rfl, (c1_no_geometry_dropped unitEngine
      [("properties", JValue.str "name")] (Or.inl rfl)).1⟩

/-- C7: every run reports exactly one terminal outcome, and when loading
the input file fails the outcome is an error carrying the underlying
failure message and nothing is written to the output file. -/
theorem c7_load_failure_outcome {G : Type} (E : GeoEngine G) (inp : RunInput)
    (output_path : String) :
    (repair_geojson_no_gpd E inp output_path).terminals.length = 1
    ∧ (∀ msg, inp.loadResult = .error msg →
        (repair_geojson_no_gpd E inp output_path).terminals
          = [Outcome.error msg]
        ∧ (repair_geojson_no_gpd E inp output_path).written = none) := by
  constructor
  · rcases hl : inp.loadResult with msg | doc
    · simp [repair_geojson_no_gpd, hl]
    · cases doc with
      | obj fields =>
        rcases hf : getFeaturesField (lookupKey fields "features")
          with msg | feats
        · simp [repair_geojson_no_gpd, hl, hf]
        · rcases hlp : loopFeatures E feats.length feats 0 with ⟨res, prog⟩
          cases res with
          | error msg => simp [repair_geojson_no_gpd, hl, hf, hlp]
          | ok survs =>
            rcases hw : inp.writeResult with msg | u
            · simp [repair_geojson_no_gpd, hl, hf, hlp, hw]
            · simp [repair_geojson_no_gpd, hl, hf, hlp, hw]
      | null => simp [repair_geojson_no_gpd, hl]
      | bool b => simp [repair_geojson_no_gpd, hl]
      | num n => simp [repair_geojson_no_gpd, hl]
      | str s => simp [repair_geojson_no_gpd, hl]
      | arr xs => simp [repair_geojson_no_gpd, hl]
  · intro msg hmsg
    constructor
    · simp [repair_geojson_no_gpd, hmsg]
    · simp [repair_geojson_no_gpd, hmsg]

/-- Witness for C7: a run whose load fails with message boom reports
exactly the error outcome boom and writes nothing. -/
theorem c7_load_failure_outcome_witness :
    (repair_geojson_no_gpd unitEngine ⟨.error "boom", .ok ()⟩
        "out.geojson").terminals.length = 1
    ∧ (repair_geojson_no_gpd unitEngine ⟨.error "boom", .ok ()⟩
        "out.geojson").terminals = [Outcome.error "boom"]
    ∧ (repair_geojson_no_gpd unitEngine ⟨.error "boom", .ok ()⟩
        "out.geojson").written = none :=
  ⟨(c7_load_failure_outcome unitEngine ⟨.error "boom", .ok ()⟩
      "out.geojson").1,
   ((c7_load_failure_outcome unitEngine ⟨.error "boom", .ok ()⟩
      "out.geojson").2 "boom" rfl).1,
   ((c7_load_failure_outcome unitEngine ⟨.error "boom", .ok ()⟩
      "out.geojson").2 "boom" rfl).2⟩

/-- C4: on a successful run the written document carries exactly the
survivor sequence as its features: the survivors are the order-preserving
filter of the input features through the per-feature pipeline, survivor
count plus dropped count equals the input count, and a feature whose
geometry fails to parse (skip) or cannot be repaired (drop) contributes
nothing to the survivor sequence. -/
theorem c4_survivor_sequence {G : Type} (E : GeoEngine G) (inp : RunInput)
    (output_path : String) (fields : List (String × JValue))
    (feats survs : List JValue) (prog : List Nat)
    (hload : inp.loadResult = .ok (JValue.obj fields))
    (hfeats : getFeaturesField (lookupKey fields "features") = .ok feats)
    (hloop : loopFeatures E feats.length feats 0 = (.ok survs, prog))
    (hwrite : inp.writeResult = .ok ()) :
    (repair_geojson_no_gpd E inp output_path).written
      = some (JValue.obj (setKey fields "features" (JValue.arr survs)),
              geojsonDumpOpts)
    ∧ survs = survivorsOf E feats
    ∧ survs.length + droppedCount E feats = feats.length
    ∧ (∀ f rest,
        featStep E f = FeatStep.skip ∨ featStep E f = FeatStep.drop →
        survivorsOf E (f :: rest) = survivorsOf E rest) := by
  have hs := loopFeatures_ok E feats.length feats 0 survs prog hloop
  refine ⟨?_, hs, ?_, ?_⟩
  · simp [repair_geojson_no_gpd, hload, hfeats, hloop, hwrite]
  · rw [hs]
    exact survivorsOf_length E feats
  · intro f rest hf
    rcases hf with hf | hf <;> simp [survivorsOf, List.filterMap_cons, hf]

/-- Witness for C4 at the mixed two-feature document: the unparseable
feature is dropped and only the repaired good feature survives. -/
theorem c4_survivor_sequence_witness :
    (repair_geojson_no_gpd unitEngine ⟨.ok docMixed, .ok ()⟩ "o").written
      = some (JValue.obj (setKey docMixedFields "features"
              (JValue.arr [featGoodFixed])), geojsonDumpOpts)
    ∧ [featGoodFixed] = survivorsOf unitEngine [featBad, featGood]
    ∧ ([featGoodFixed] : List JValue).length
        + droppedCount unitEngine [featBad, featGood] = 2 := by
  have h := c4_survivor_sequence unitEngine ⟨.ok docMixed, .ok ()⟩ "o"
    docMixedFields [featBad, featGood] [featGoodFixed] [60] rfl rfl rfl rfl
  exact ⟨h.1, h.2.1, h.2.2.1⟩

/-- C9: the document handed to the serializer on a successful run is the
input document with only the features field replaced by the survivor
sequence: lookup of every other key is unchanged, the dump options write
non-ASCII characters literally (ensure_ascii false) and use stable
two-space indentation. -/
theorem c9_output_document {G : Type} (E : GeoEngine G) (inp : RunInput)
    (output_path : String) (fields : List (String × JValue))
    (feats survs : List JValue) (prog : List Nat)
    (hload : inp.loadResult = .ok (JValue.obj fields))
    (hfeats : getFeaturesField (lookupKey fields "features") = .ok feats)
    (hloop : loopFeatures E feats.length feats 0 = (.ok survs, prog))
    (hwrite : inp.writeResult = .ok ()) :
    (repair_geojson_no_gpd E inp output_path).written
      = some (JValue.obj (setKey fields "features" (JValue.arr survs)),
              geojsonDumpOpts)
    ∧ geojsonDumpOpts.ensure_ascii = false
    ∧ geojsonDumpOpts.indent = some 2
    ∧ (∀ k, k ≠ "features" →
        lookupKey (setKey fields "features" (JValue.arr survs)) k
          = lookupKey fields k)
    ∧ lookupKey (setKey fields "features" (JValue.arr survs)) "features"
      = some (JValue.arr survs) := by
  refine ⟨?_, rfl, rfl, ?_, ?_⟩
  · simp [repair_geojson_no_gpd, hload, hfeats, hloop, hwrite]
  · intro k hk
    exact lookupKey_setKey_ne fields "features" k (JValue.arr survs) hk
  · exact lookupKey_setKey_self fields "features" (JValue.arr survs)

/-- Witness for C9 at the mixed two-feature document: the features field
is replaced and the type field is preserved. -/
theorem c9_output_document_witness :
    (repair_geojson_no_gpd unitEngine ⟨.ok docMixed, .ok ()⟩ "o").written
      = some (JValue.obj (setKey docMixedFields "features"
              (JValue.arr [featGoodFixed])), geojsonDumpOpts)
    ∧ lookupKey (setKey docMixedFields "features"
        (JValue.arr [featGoodFixed])) "type" = lookupKey docMixedFields "type" := by
  have h := c9_output_document unitEngine ⟨.ok docMixed, .ok ()⟩ "o"
    docMixedFields [featBad, featGood] [featGoodFixed] [60] rfl rfl rfl rfl
  exact ⟨h.1, h.2.2.2.1 "type" (by decide)⟩

/-- C6 counterexample: in a two-feature run whose first feature fails to
parse, the continue statement skips that feature without emitting any
progress value, so the sink receives 10, 30, 60, 100 instead of the
claimed per-feature sequence 10, 30, 60, 90, 100. -/
theorem c6_counterexample :
    (repair_geojson_no_gpd unitEngine ⟨.ok docMixed, .ok ()⟩
        "out.geojson").progress = [10, 30, 60, 100]
    ∧ ([10, 30, 60, 100] : List Nat)
      ≠ [10, 30, 30 + 60 * 1 / max 1 2, 30 + 60 * 2 / max 1 2, 100] :=
  ⟨rfl, by decide⟩

/-- C6 (amended): on a successful run the progress sink receives 10, 30,
then one value 30 + floor of 60 d / n per feature not skipped by a parse
failure, where d counts the non-skipped features processed so far and n
is the feature count floored at 1, and finally 100; the whole emitted
sequence is monotonically non-decreasing, stays within 0 and 100, and
ends in 100. -/
theorem c6_progress_sequence {G : Type} (E : GeoEngine G) (inp : RunInput)
    (output_path : String) (fields : List (String × JValue))
    (feats survs : List JValue) (prog : List Nat)
    (hload : inp.loadResult = .ok (JValue.obj fields))
    (hfeats : getFeaturesField (lookupKey fields "features") = .ok feats)
    (hloop : loopFeatures E feats.length feats 0 = (.ok survs, prog))
    (hwrite : inp.writeResult = .ok ()) :
    (repair_geojson_no_gpd E inp output_path).progress
      = 10 :: 30 :: (prog ++ [100])
    ∧ prog = (emittedDones E feats 0).map
        (fun d => 30 + 60 * d / max 1 feats.length)
    ∧ List.Chain' (· ≤ ·) ((repair_geojson_no_gpd E inp output_path).progress)
    ∧ (∀ x ∈ (repair_geojson_no_gpd E inp output_path).progress, x ≤ 100)
    ∧ ((repair_geojson_no_gpd E inp output_path).progress).getLast?
      = some 100 := by
  have hprogeq : (repair_geojson_no_gpd E inp output_path).progress
      = 10 :: 30 :: (prog ++ [100]) := by
    simp [repair_geojson_no_gpd, hload, hfeats, hloop, hwrite]
  have hformula : prog = (emittedDones E feats 0).map
      (fun d => 30 + 60 * d / max 1 feats.length) := by
    have h := loopFeatures_prog_eq E feats.length feats 0
    rw [hloop] at h
    exact h
  have hbounds : ∀ x ∈ prog, 30 ≤ x ∧ x ≤ 90 := by
    have h := loopFeatures_prog_bounds E feats.length feats 0
      (by omega)
    rw [hloop] at h
    exact h
  have hchain30 : List.Chain' (· ≤ ·) (30 :: prog ++ [100]) := by
    have h := loopFeatures_chain E feats.length feats 0 30 (by omega)
      (by omega) (fun d hd hdn => Nat.le_add_right 30 _)
    rw [hloop] at h
    exact h
  have hchain : List.Chain' (· ≤ ·) (10 :: 30 :: (prog ++ [100])) :=
    List.chain'_cons.mpr ⟨by omega, hchain30⟩
  refine ⟨hprogeq, hformula, ?_, ?_, ?_⟩
  · rw [hprogeq]
    exact hchain
  · intro x hx
    rw [hprogeq] at hx
    simp only [List.mem_cons, List.mem_append] at hx
    rcases hx with hx | hx | hx | hx
    · omega
    · omega
    · have := (hbounds x hx).2
      omega
    · simp at hx
      omega
  · rw [hprogeq,
      show 10 :: 30 :: (prog ++ [100]) = (10 :: 30 :: prog) ++ [100] from
        by simp,
      List.getLast?_concat]

/-- Witness for C6 (amended) at the mixed two-feature document. -/
theorem c6_progress_sequence_witness :
    (repair_geojson_no_gpd unitEngine ⟨.ok docMixed, .ok ()⟩ "o").progress
      = 10 :: 30 :: ([60] ++ [100])
    ∧ ((repair_geojson_no_gpd unitEngine ⟨.ok docMixed, .ok ()⟩
        "o").progress).getLast? = some 100 := by
  have h := c6_progress_sequence unitEngine ⟨.ok docMixed, .ok ()⟩ "o"
    docMixedFields [featBad, featGood] [featGoodFixed] [60] rfl rfl rfl rfl
  exact ⟨h.1, h.2.2.2.2⟩

end FixGeojson
